import Mathlib

/-!
Shallow embedding of the hbbft consensus engine of this repository:

* `crates/ethcore/src/engines/hbbft/hbbft_message_memorium.rs`
  (the message memorium: audit persistence, staking-epoch history,
  background worker), and
* `ethcore/src/engines/hbbft/hbbft_engine.rs`
  (the `HoneyBadgerBFT` engine: step processing, sealing sessions,
  message handling).

Pure data is translated directly; disk I/O and the external
collaborators (client, BFT core, threshold-signature sessions) are
modelled as explicit environment records whose fields stand for the
results the collaborator calls return.  Machine integers (`u64`,
`usize`, `U256`) are represented by `Nat`; none of the modelled code
paths rely on wrap-around.
-/

namespace HbbftSpec

/-! ## Message memorium data model
    (from `hbbft_message_memorium.rs`) -/

/-- `NodeId` is an opaque validator identity (a `H512` in the source);
only equality matters here. -/
abbrev NodeId := Nat

/-- `honey_badger::Message<NodeId>`: the memorium only uses its epoch
(`message.epoch()`) and its serde-JSON serialization, which can fail.
`serialized = none` models a `serde_json::to_string` error. -/
structure HbMessage where
  epoch : Nat
  serialized : Option String
deriving DecidableEq

/-- `sealing::Message` as seen by the memorium: only its serde-JSON
serialization is used (the epoch travels next to it in the queue). -/
structure SealMessage where
  serialized : Option String
deriving DecidableEq

/-- `BadSealReason` from the source. -/
inductive BadSealReason where
  | ErrorTresholdSignStep
  | MismatchedNetworkInfo
deriving DecidableEq

/-- `SealEventGood { node_id, block_num }`. -/
structure SealEventGood where
  node_id : NodeId
  block_num : Nat
deriving DecidableEq

/-- `SealEventBad { node_id, block_num, reason }`. -/
structure SealEventBad where
  node_id : NodeId
  block_num : Nat
  reason : BadSealReason
deriving DecidableEq

/-- `NodeStakingEpochHistory`: per-(validator, staking-epoch) history. -/
structure NodeStakingEpochHistory where
  staking_epoch : Nat
  staking_epoch_start_block : Nat
  node_id : NodeId
  last_good_sealing_message : Nat
  last_late_sealing_message : Nat
  last_error_sealing_message : Nat
  sealing_blocks_good : List Nat
  sealing_blocks_late : List Nat
  sealing_blocks_bad : List Nat
deriving DecidableEq

/-- `StakingEpochHistory`: per staking-epoch aggregate over all nodes.
`staking_epoch_end_block = 0` denotes a still-open epoch. -/
structure StakingEpochHistory where
  staking_epoch : Nat
  staking_epoch_start_block : Nat
  staking_epoch_end_block : Nat
  node_staking_epoch_histories : List NodeStakingEpochHistory
deriving DecidableEq

/-- `HbbftMessageMemorium`: queues, configuration and history state.
The `VecDeque`s are lists whose head is the queue front. -/
structure HbbftMessageMemorium where
  message_tracking_id : Nat
  config_bad_message_evidence_reporting : Nat
  config_blocks_to_keep_on_disk : Nat
  config_block_to_keep_directory : String
  last_block_deleted_from_disk : Nat
  dispatched_messages : List HbMessage
  dispatched_seals : List (SealMessage × Nat)
  dispatched_seal_event_good : List SealEventGood
  dispatched_seal_event_bad : List SealEventBad
  staking_epoch_history : List StakingEpochHistory
deriving DecidableEq

/-- `HbbftMessageMemorium::new(config_blocks_to_keep_on_disk, dir)`. -/
def HbbftMessageMemorium.new (config_blocks_to_keep_on_disk : Nat)
    (block_to_keep_directory : String) : HbbftMessageMemorium where
  message_tracking_id := 0
  config_bad_message_evidence_reporting := 0
  config_blocks_to_keep_on_disk := config_blocks_to_keep_on_disk
  config_block_to_keep_directory := block_to_keep_directory
  last_block_deleted_from_disk := 0
  dispatched_messages := []
  dispatched_seals := []
  dispatched_seal_event_good := []
  dispatched_seal_event_bad := []
  staking_epoch_history := []

/-- What `report_new_epoch` logs: `warn!` on a duplicate id, `info!`
  for a new id. -/
inductive EpochReportLog where
  | warnDuplicate (staking_epoch : Nat)
  | infoNew (staking_epoch : Nat)
deriving DecidableEq

/-- `HbbftMessageMemorium::report_new_epoch`: a
`binary_search_by_key(&staking_epoch, |x| x.staking_epoch)` over the
(ascending, duplicate-free) history decides whether the id is already
present — over such a history this is exactly membership, modelled with
`List.any`.  On a hit the source logs a warning; in the `else` branch it
logs an info line and then does nothing further (the conditional
`if self.staking_epoch_history.len() > 0` in the source has an empty
body), so the history is returned unchanged in both branches. -/
def HbbftMessageMemorium.report_new_epoch (m : HbbftMessageMemorium)
    (staking_epoch : Nat) (_staking_epoch_start_block : Nat) :
    HbbftMessageMemorium × EpochReportLog :=
  if m.staking_epoch_history.any (fun x => x.staking_epoch == staking_epoch) then
    (m, .warnDuplicate staking_epoch)
  else
    (m, .infoNew staking_epoch)

/-- `HbbftMessageMemorium::get_staking_epoch_history`: walks the history
in order and returns the first entry `x` with
`block_num > x.staking_epoch_start_block` and
(`x.staking_epoch_end_block == 0` or
`block_num <= x.staking_epoch_end_block`); `None` otherwise. -/
def getStakingEpochHistory :
    List StakingEpochHistory → Nat → Option StakingEpochHistory
  | [], _ => none
  | x :: rest, block_num =>
    if x.staking_epoch_start_block < block_num
        ∧ (x.staking_epoch_end_block = 0
            ∨ block_num ≤ x.staking_epoch_end_block) then
      some x
    else
      getStakingEpochHistory rest block_num

/-- The membership predicate `get_staking_epoch_history` actually uses:
the range `(start, end]`, with `end = 0` meaning still open. -/
def epochRangeContains (x : StakingEpochHistory) (block_num : Nat) : Bool :=
  decide (x.staking_epoch_start_block < block_num)
    && (x.staking_epoch_end_block == 0
        || decide (block_num ≤ x.staking_epoch_end_block))

/-! ## Disk persistence
    (`on_message_string_received` / `work_message`) -/

/-- One entry of `fs::read_dir("data/messages/")`: whether the path is a
directory, and the epoch number its file name parses to (`none` when
`dir_name.parse::<u64>()` fails).  A whole-entry `Err(_)` from the
iterator is modelled as `none` at the outer `Option`. -/
structure DirEntry where
  is_dir : Bool
  parsed_epoch : Option Nat
deriving DecidableEq

/-- Results of the file-system calls `on_message_string_received`
performs, in program order.  `read_dir = none` models
`fs::read_dir("data/messages/")` returning `Err`, which the source
unwraps.  `remove_dir_all` results are only logged by the source, so
they do not appear here. -/
structure DiskEnv where
  create_dir_ok : Bool
  file_create_ok : Bool
  file_write_ok : Bool
  read_dir : Option (List (Option DirEntry))

/-- Outcome of one persistence attempt: either the thread panicked
(`fs::read_dir(..).unwrap()` on an `Err`), or it finished with the new
memorium state and the list of epoch directories it asked
`fs::remove_dir_all` to delete. -/
inductive PersistOutcome where
  | panicked
  | ok (m : HbbftMessageMemorium) (deleted : List Nat)
deriving DecidableEq

/-- `HbbftMessageMemorium::on_message_string_received`, line by line:
bump `message_tracking_id`; skip everything unless
`config_blocks_to_keep_on_disk > 0 && epoch > last_block_deleted_from_disk`;
`create_dir_all` / `File::create` failures warn and return;
a `file.write` failure only warns; then, when
`epoch > config_blocks_to_keep_on_disk &&
 epoch > last_block_deleted_from_disk + config_blocks_to_keep_on_disk`,
list `data/messages/` (`unwrap` — an `Err` panics) and delete every
directory whose parsed name `d` satisfies
`d <= epoch - config_blocks_to_keep_on_disk`.  The watermark assignment
`last_block_deleted_from_disk = epoch` sits inside the `for` loop, so it
happens only when the listing is nonempty. -/
def onMessageStringReceived (env : DiskEnv) (m0 : HbbftMessageMemorium)
    (_message_json : String) (epoch : Nat) : PersistOutcome :=
  let m := { m0 with message_tracking_id := m0.message_tracking_id + 1 }
  if 0 < m.config_blocks_to_keep_on_disk
      ∧ m.last_block_deleted_from_disk < epoch then
    if !env.create_dir_ok then
      .ok m []
    else if !env.file_create_ok then
      .ok m []
    else
      -- a write failure is logged and execution continues
      if m.config_blocks_to_keep_on_disk < epoch
          ∧ m.last_block_deleted_from_disk + m.config_blocks_to_keep_on_disk
              < epoch then
        match env.read_dir with
        | none => .panicked
        | some entries =>
          let deleted := entries.filterMap fun e? =>
            match e? with
            | none => none
            | some e =>
              if e.is_dir then
                match e.parsed_epoch with
                | some d =>
                  if d ≤ epoch - m.config_blocks_to_keep_on_disk then
                    some d
                  else
                    none
                | none => none
              else
                none
          let m2 :=
            if entries.isEmpty then m
            else { m with last_block_deleted_from_disk := epoch }
          .ok m2 deleted
      else
        .ok m []
  else
    .ok m []

/-- Outcome of one `work_message` call: either a panic escaped from a
persistence attempt, or the call finished with the new state, the value
it `return`ed, and the epoch directories deleted along the way. -/
inductive WorkOutcome where
  | panicked
  | ok (m : HbbftMessageMemorium) (returned : Bool) (deleted : List Nat)
deriving DecidableEq

/-- First block of `work_message`: pop at most one dispatched
consensus message; a serde failure (`serialized = none`) is logged and
the item dropped, otherwise the message is persisted under its epoch. -/
def workPhase1 (env : DiskEnv) (m0 : HbbftMessageMemorium) :
    PersistOutcome :=
  match m0.dispatched_messages with
  | [] => .ok m0 []
  | msg :: rest =>
    let m1 := { m0 with dispatched_messages := rest }
    match msg.serialized with
    | some json => onMessageStringReceived env m1 json msg.epoch
    | none => .ok m1 []

/-- Second block of `work_message`: the same for at most one dispatched
seal, persisted under the block number queued next to it. -/
def workPhase2 (env : DiskEnv) (m2 : HbbftMessageMemorium) :
    PersistOutcome :=
  match m2.dispatched_seals with
  | [] => .ok m2 []
  | (sl, ep) :: rest =>
    let m3 := { m2 with dispatched_seals := rest }
    match sl.serialized with
    | some json => onMessageStringReceived env m3 json ep
    | none => .ok m3 []

/-- `HbbftMessageMemorium::work_message`: the consensus-message block,
then the seal block, then pop-and-discard at most one good seal event
(the source's `if let` body is empty; bad seal events are never
popped).  The source sets a local `had_worked` flag in the first two
blocks but ends with a literal `return false;`, so the returned value
is `false` on every path. -/
def workMessage (env : DiskEnv) (m0 : HbbftMessageMemorium) : WorkOutcome :=
  match workPhase1 env m0 with
  | .panicked => .panicked
  | .ok m2 d1 =>
    match workPhase2 env m2 with
    | .panicked => .panicked
    | .ok m4 d2 =>
      let m5 :=
        match m4.dispatched_seal_event_good with
        | [] => m4
        | _ :: rest => { m4 with dispatched_seal_event_good := rest }
      .ok m5 false (d1 ++ d2)

/-! ## Engine data model
    (from `hbbft_engine.rs`) -/

/-- `EngineError` variants used by `hbbft_engine.rs`. -/
inductive EngineError where
  | RequiresClient
  | RequiresSigner
  | UnexpectedMessage
  | MalformedMessage (msg : String)
deriving DecidableEq

/-- Modelled from the spec: `sealing.rs` is not among the provided
sources.  A `Sealing` session is per-block: `Ongoing` with the
signature shares accumulated so far, or the terminal
`Complete(signature)`. -/
inductive Sealing where
  | Ongoing (shares : List Nat)
  | Complete (sig : Nat)
deriving DecidableEq

/-- Modelled from the spec: `Sealing::signature()` returns the
assembled signature if the session is `Complete`, else `None`. -/
def Sealing.signature : Sealing → Option Nat
  | .Ongoing _ => none
  | .Complete sig => some sig

/-- The engine's `sealing: BTreeMap<BlockNumber, Sealing>`, as an
association list with unique keys. -/
abbrev SealingMap := List (Nat × Sealing)

/-- `BTreeMap::get`. -/
def mapGet (k : Nat) (m : List (Nat × α)) : Option α :=
  (m.find? (fun p => p.1 == k)).map (fun p => p.2)

/-- `BTreeMap::insert` (replace the binding of `k`, or append it). -/
def mapInsert (k : Nat) (v : α) : List (Nat × α) → List (Nat × α)
  | [] => [(k, v)]
  | (k2, v2) :: rest =>
    if k = k2 then (k, v) :: rest else (k2, v2) :: mapInsert k v rest

/-- `hbbft::NetworkInfo<NodeId>`, reduced to the parts
`hbbft_engine.rs` reads (`our_id`, `all_ids`); it is otherwise passed
through opaquely. -/
structure NetInfo where
  our_id : NodeId
  all_ids : List NodeId

/-- One contribution inside an agreed batch
(`engines::hbbft::contribution`, used field-wise by `process_output`):
serialized transactions, a proposed timestamp, and the proposer's
random bytes. -/
structure Contribution where
  transactions : List Nat
  timestamp : Nat
  random_data : List (Fin 256)

/-- An agreed `Batch`: epoch plus per-proposer contributions, iterated
in map order. -/
structure Batch where
  epoch : Nat
  contributions : List (NodeId × Contribution)

/-- An `hbbft_state::HoneyBadgerStep`: outbound messages (opaque here —
the engine only counts and forwards them) and the agreed batches. -/
structure HoneyBadgerStep where
  messages : List Nat
  output : List Batch

/-- A `sealing::Step` (modelled from the spec: outbound signature-share
messages plus zero or one assembled signature in `output`). -/
structure SealStep where
  messages : List Nat
  output : List Nat

/-- Results of every external-collaborator call the modelled engine
paths make.  `client_present`/`latest_block` stand for
`client_arc()` / `client.block_number(BlockId::Latest)`;
`refresh` is the spec-modelled `update_honeybadger` ("refresh the
honey-badger instance against the latest known block") acting on the
abstract `hbbft_state`; the `sealing_*` fields are the spec-modelled
threshold-signature calls of `sealing.rs`; the rest mirror §6 of the
design. -/
structure Collab where
  client_present : Bool
  latest_block : Option Nat
  refresh : Nat → Nat
  decode_txn : Nat → Option Nat
  check_sig : Nat → Option Nat
  create_pending_block : List Nat → Nat → Nat → Option (Nat × Nat)
  sealing_sign : Sealing → Nat → Except Unit (Sealing × SealStep)
  sealing_handle : Sealing → NodeId → Nat → Except Unit (Sealing × SealStep)
  network_info_for : Nat → Option NetInfo
  process_message_result : Option (HoneyBadgerStep × NetInfo)
  contribute_result : Option (HoneyBadgerStep × NetInfo)
  is_syncing : Bool

/-- The engine state fields the modelled paths touch: the abstract
BFT-core instance state (`hbbft_state`), the sealing-session map, the
process-wide message counter and the per-epoch random numbers. -/
structure EngineR where
  hbbft_state : Nat
  sealing : SealingMap
  message_counter : Nat
  random_numbers : List (Nat × Nat)
deriving DecidableEq

/-! ## `process_output` -/

/-- `U256::from(&bytes[0..32])`: the first 32 bytes read as a
big-endian 256-bit integer. -/
def u256FromBe (bytes : List (Fin 256)) : Nat :=
  bytes.foldl (fun acc b => acc * 256 + b.val) 0

/-- The `fold` in `process_output` computing the block's random number:
start from `U256::zero()`; for each contribution with at least 32 bytes
of `random_data` xor in the first 32 bytes; shorter contributions only
log and leave the accumulator unchanged. -/
def batchRandomNumber (contributions : List (NodeId × Contribution)) : Nat :=
  contributions.foldl
    (fun acc nc =>
      if 32 ≤ nc.2.random_data.length then
        Nat.xor (u256FromBe (nc.2.random_data.take 32)) acc
      else
        acc)
    0

/-- Ascending insertion of a value into a sorted list (used to model
`itertools::sorted`; for `Nat` with `≤` the ascending sorted
arrangement of a multiset is unique, so any sort yields the same
list). -/
def insertSorted (x : Nat) : List Nat → List Nat
  | [] => [x]
  | y :: ys => if x ≤ y then x :: y :: ys else y :: insertSorted x ys

/-- Ascending insertion sort over `Nat`. -/
def sortNat (l : List Nat) : List Nat :=
  l.foldr insertSorted []

/-- `timestamps.iter().nth(timestamps.len() / 2)` over the sorted
contribution timestamps: the upper median, `none` when there are no
contributions. -/
def medianTimestamp (ts : List Nat) : Option Nat :=
  (sortNat ts).get? (ts.length / 2)

/-- The transaction pipeline of `process_output`: flatten all
contributions' serialized transactions, decode (dropping failures),
deduplicate keeping first occurrences, then check signatures (dropping
failures). -/
def batchTxns (env : Collab) (batch : Batch) : List Nat :=
  ((((batch.contributions.map (fun nc => nc.2.transactions)).flatten).filterMap
      env.decode_txn).eraseDups).filterMap env.check_sig

/-- Which early exit `process_output` took (when it did not panic). -/
inductive ProcessOutputExit where
  | noBatch
  | timestampFail
  | blockFail
  | signFail
  | completed
deriving DecidableEq

/-- Result of `process_output`: `panicked` for the
`panic!("UNHANDLED EPOCH OUTPUTS!")` on more than one batch (the maps
it carries are the untouched inputs), otherwise the exit point plus the
resulting random-number and sealing maps. -/
inductive ProcessOutputResult where
  | panicked (random_numbers : List (Nat × Nat)) (sealing : SealingMap)
  | done (why : ProcessOutputExit) (random_numbers : List (Nat × Nat))
      (sealing : SealingMap)
deriving DecidableEq

/-- `HoneyBadgerBFT::process_output`: panic on `output.len() > 1`;
return on an empty output; compute transactions, the median timestamp
(an empty contribution set fails here and returns), and the random
number, storing the latter under `batch.epoch`; then try to create the
pending block and, via `entry(block_num).or_insert_with(new_sealing)`,
`sign` it; `process_seal_step` finally records a `Complete` session
when the sign step already carries an assembled signature. -/
def processOutput (env : Collab) (random_numbers : List (Nat × Nat))
    (sealing : SealingMap) (output : List Batch) : ProcessOutputResult :=
  if 2 ≤ output.length then
    .panicked random_numbers sealing
  else
    match output.head? with
    | none => .done .noBatch random_numbers sealing
    | some batch =>
      let txns := batchTxns env batch
      match medianTimestamp (batch.contributions.map (fun nc => nc.2.timestamp)) with
      | none => .done .timestampFail random_numbers sealing
      | some timestamp =>
        let rn2 := mapInsert batch.epoch (batchRandomNumber batch.contributions)
          random_numbers
        match env.create_pending_block txns timestamp batch.epoch with
        | none => .done .blockFail rn2 sealing
        | some (block_num, bare_hash) =>
          -- `entry(block_num).or_insert_with(|| self.new_sealing(..))`
          let s0 := (mapGet block_num sealing).getD (Sealing.Ongoing [])
          match env.sealing_sign s0 bare_hash with
          | .error _ => .done .signFail rn2 (mapInsert block_num s0 sealing)
          | .ok (s1, step) =>
            let sealing2 := mapInsert block_num s1 sealing
            match step.output.head? with
            | some sig =>
              .done .completed rn2 (mapInsert block_num (.Complete sig) sealing2)
            | none => .done .completed rn2 sealing2

/-! ## Sealing path and seal readiness -/

/-- `HoneyBadgerBFT::process_sealing_message`: require a client; drop
the message (returning `Ok`) when the latest known block number is at
or past the target block; require network info for the block (else
`UnexpectedMessage`); feed the share to the per-block session created
on demand (`entry(..).or_insert_with(..)`) — a threshold-sign error is
only logged (still `Ok`), and an assembled signature marks the session
`Complete`. -/
def processSealingMessage (env : Collab) (sealing : SealingMap)
    (sender : NodeId) (message : Nat) (block_num : Nat) :
    Except EngineError Unit × SealingMap :=
  if !env.client_present then
    (.error .RequiresClient, sealing)
  else if (match env.latest_block with
           | some latest => decide (block_num ≤ latest)
           | none => false) then
    (.ok (), sealing)
  else
    match env.network_info_for block_num with
    | none => (.error .UnexpectedMessage, sealing)
    | some _ =>
      let s0 := (mapGet block_num sealing).getD (Sealing.Ongoing [])
      match env.sealing_handle s0 sender message with
      | .error _ => (.ok (), mapInsert block_num s0 sealing)
      | .ok (s1, step) =>
        let sealing2 := mapInsert block_num s1 sealing
        match step.output.head? with
        | some sig => (.ok (), mapInsert block_num (.Complete sig) sealing2)
        | none => (.ok (), sealing2)

/-- `HoneyBadgerBFT::seals_internally`: `Some(false)` without touching
the map when no client or no latest block is known; otherwise replace
the map by `split_off(&next_block)` (every entry with key `>=
latest + 1` survives) and answer whether the surviving entry for
`latest + 1` holds a signature. -/
def sealsInternally (env : Collab) (sealing : SealingMap) :
    Option Bool × SealingMap :=
  if !env.client_present then
    (some false, sealing)
  else
    match env.latest_block with
    | none => (some false, sealing)
    | some latest =>
      let next_block := latest + 1
      let sealing2 := sealing.filter (fun p => next_block ≤ p.1)
      match mapGet next_block sealing2 with
      | some s => (some (s.signature.isSome), sealing2)
      | none => (some false, sealing2)

/-! ## Message handling -/

/-- A decoded wire `Message`: the two envelope variants. -/
inductive WireMessage where
  | honeyBadger (msg_idx : Nat) (msg : Nat)
  | sealingMsg (block_num : Nat) (msg : Nat)

/-- `HoneyBadgerBFT::process_step`: assign the next sequence numbers to
the step's outbound messages (the counter advances once per message),
dispatch them (network I/O, no engine state), then `process_output`;
`none` models the panic propagating out of `process_output`. -/
def processStep (env : Collab) (e : EngineR) (step : HoneyBadgerStep) :
    Option EngineR :=
  let counter2 := e.message_counter + step.messages.length
  match processOutput env e.random_numbers e.sealing step.output with
  | .panicked _ _ => none
  | .done _ rn2 s2 =>
    some { e with
      message_counter := counter2
      random_numbers := rn2
      sealing := s2 }

/-- `HoneyBadgerBFT::join_hbbft_epoch`: requires a client, is a no-op
while syncing, otherwise processes the step from
`contribute_if_contribution_threshold_reached` when there is one. -/
def joinHbbftEpoch (env : Collab) (e : EngineR) :
    Option (Except EngineError Unit × EngineR) :=
  if !env.client_present then
    some (.error .RequiresClient, e)
  else if env.is_syncing then
    some (.ok (), e)
  else
    match env.contribute_result with
    | none => some (.ok (), e)
    | some (step, _) =>
      match processStep env e step with
      | none => none
      | some e2 => some (.ok (), e2)

/-- `HoneyBadgerBFT::process_hb_message`: requires a client, feeds the
message to the BFT core, processes any resulting step and then tries to
join the current epoch. -/
def processHbMessage (env : Collab) (e : EngineR) :
    Option (Except EngineError Unit × EngineR) :=
  if !env.client_present then
    some (.error .RequiresClient, e)
  else
    match env.process_message_result with
    | none => some (.ok (), e)
    | some (step, _) =>
      match processStep env e step with
      | none => none
      | some e2 =>
        match joinHbbftEpoch env e2 with
        | none => none
        | some (.error err, e3) => some (.error err, e3)
        | some (.ok _, e3) => some (.ok (), e3)

/-- `HoneyBadgerBFT::check_for_epoch_change`: with a registered client,
ask the BFT-core collaborator to refresh the honey-badger instance
against the latest block (failure is only logged); without one, do
nothing. -/
def checkForEpochChange (env : Collab) (e : EngineR) : EngineR :=
  if env.client_present then
    { e with hbbft_state := env.refresh e.hbbft_state }
  else
    e

instance {ε α : Type} [DecidableEq ε] [DecidableEq α] :
    DecidableEq (Except ε α) := fun a b =>
  match a, b with
  | .error e1, .error e2 =>
    if h : e1 = e2 then .isTrue (by rw [h]) else
      .isFalse (by intro hc; cases hc; exact h rfl)
  | .error _, .ok _ => .isFalse (by intro hc; cases hc)
  | .ok _, .error _ => .isFalse (by intro hc; cases hc)
  | .ok a1, .ok a2 =>
    if h : a1 = a2 then .isTrue (by rw [h]) else
      .isFalse (by intro hc; cases hc; exact h rfl)

/-- Result of one `handle_message` call: the returned
`Result<(), EngineError>`, the engine state afterwards, and whether
`serde_json::from_slice` was reached at all. -/
structure HandleMessageResult where
  result : Except EngineError Unit
  engine : EngineR
  decode_attempted : Bool
deriving DecidableEq

/-- `HoneyBadgerBFT::handle_message`: first the epoch-change check,
then `node_id.ok_or(EngineError::UnexpectedMessage)?` — a missing
sender errors out before the payload is ever decoded — then decode
(`decode` models `serde_json::from_slice` on the raw bytes) and route
to the honey-badger or sealing path.  `none` models a panic escaping
from `process_output`. -/
def handleMessage (env : Collab) (decode : List Nat → Option WireMessage)
    (e : EngineR) (message : List Nat) (node_id : Option NodeId) :
    Option HandleMessageResult :=
  let e1 := checkForEpochChange env e
  match node_id with
  | none => some ⟨.error .UnexpectedMessage, e1, false⟩
  | some nid =>
    match decode message with
    | some (.honeyBadger _ _) =>
      match processHbMessage env e1 with
      | none => none
      | some (r, e2) => some ⟨r, e2, true⟩
    | some (.sealingMsg block_num msg) =>
      let (r, s2) := processSealingMessage env e1.sealing nid msg block_num
      some ⟨r, { e1 with sealing := s2 }, true⟩
    | none =>
      some ⟨.error (.MalformedMessage "Serde message decoding failed."), e1, true⟩

/-! ## Spec-side formulations and concrete environments -/

/-- The per-epoch random value as §4.4 of the design states it: the
XOR, starting from zero, over exactly the contributions carrying at
least 32 bytes of randomness, of their first 32 bytes read as a 256-bit
integer.  Compared against the engine's `fold` (`batchRandomNumber`). -/
def specRandomValue (contributions : List (NodeId × Contribution)) : Nat :=
  (contributions.filter (fun nc => 32 ≤ nc.2.random_data.length)).foldl
    (fun acc nc => Nat.xor acc (u256FromBe (nc.2.random_data.take 32))) 0

/-- A concrete collaborator environment for evaluating the engine
functions on explicit inputs: a registered client at latest block 5, a
BFT-core refresh that advances the abstract instance state, identity
transaction decoding and threshold-signature calls that succeed without
producing an output signature. -/
def collabBase : Collab where
  client_present := true
  latest_block := some 5
  refresh := fun s => s + 1
  decode_txn := fun t => some t
  check_sig := fun t => some t
  create_pending_block := fun _ _ epoch => some (epoch, epoch)
  sealing_sign := fun s _ => .ok (s, ⟨[], []⟩)
  sealing_handle := fun s _ _ => .ok (s, ⟨[], []⟩)
  network_info_for := fun _ => some ⟨0, [0]⟩
  process_message_result := none
  contribute_result := none
  is_syncing := false

/-- A disk environment whose file-system calls all succeed and whose
audit root lists the epoch directories `1..=10`. -/
def diskEnvTen : DiskEnv where
  create_dir_ok := true
  file_create_ok := true
  file_write_ok := true
  read_dir := some ((List.range 10).map (fun i => some ⟨true, some (i + 1)⟩))

/-! ## Helper lemmas -/

theorem mapGet_filter_le (k : Nat) (s : List (Nat × α)) :
    mapGet k (s.filter (fun p => k ≤ p.1)) = mapGet k s := by
  induction s with
  | nil => rfl
  | cons p rest ih =>
    by_cases hk : p.1 = k
    · have hkeep : (decide (k ≤ p.1)) = true := by simp [hk]
      simp [mapGet, List.filter, hkeep, List.find?, hk]
    · have hne : (p.1 == k) = false := by simp [hk]
      by_cases hle : k ≤ p.1
      · have hkeep : (decide (k ≤ p.1)) = true := by simp [hle]
        simpa [mapGet, List.filter, hkeep, List.find?, hne] using ih
      · have hdrop : (decide (k ≤ p.1)) = false := by simp [hle]
        simpa [mapGet, List.filter, hdrop, List.find?, hne] using ih

theorem batchRandomNumber_go (l : List (NodeId × Contribution)) :
    ∀ acc : Nat,
      l.foldl
        (fun acc nc =>
          if 32 ≤ nc.2.random_data.length then
            Nat.xor (u256FromBe (nc.2.random_data.take 32)) acc
          else acc) acc
      = (l.filter (fun nc => 32 ≤ nc.2.random_data.length)).foldl
          (fun acc nc => Nat.xor acc (u256FromBe (nc.2.random_data.take 32)))
          acc := by
  induction l with
  | nil => intro acc; rfl
  | cons nc rest ih =>
    intro acc
    by_cases h : 32 ≤ nc.2.random_data.length
    · rw [List.foldl_cons, if_pos h, List.filter_cons_of_pos (by simpa using h),
        List.foldl_cons]
      have hx : Nat.xor (u256FromBe (nc.2.random_data.take 32)) acc
          = Nat.xor acc (u256FromBe (nc.2.random_data.take 32)) :=
        Nat.xor_comm _ _
      rw [hx]
      exact ih _
    · rw [List.foldl_cons, if_neg h,
        List.filter_cons_of_neg (by simpa using h)]
      exact ih acc

theorem batchRandomNumber_eq_spec (contributions : List (NodeId × Contribution)) :
    batchRandomNumber contributions = specRandomValue contributions :=
  batchRandomNumber_go contributions 0

theorem insertSorted_length (x : Nat) (l : List Nat) :
    (insertSorted x l).length = l.length + 1 := by
  induction l with
  | nil => rfl
  | cons y ys ih =>
    unfold insertSorted
    split
    · simp
    · simp [ih]

theorem sortNat_length (l : List Nat) : (sortNat l).length = l.length := by
  induction l with
  | nil => rfl
  | cons x xs ih =>
    unfold sortNat at ih ⊢
    simp [List.foldr_cons, insertSorted_length, ih]

theorem medianTimestamp_isSome (ts : List Nat) (h : ts ≠ []) :
    (medianTimestamp ts).isSome := by
  have hpos : 0 < ts.length := List.length_pos.mpr h
  have hlt : ts.length / 2 < (sortNat ts).length := by
    rw [sortNat_length]
    exact Nat.div_lt_self hpos (by decide)
  unfold medianTimestamp
  rw [List.get?_eq_getElem?]
  simp [List.getElem?_eq_getElem hlt]

theorem onMessageStringReceived_no_panic (env : DiskEnv)
    (m : HbbftMessageMemorium) (json : String) (epoch : Nat)
    (h : env.read_dir.isSome) :
    onMessageStringReceived env m json epoch ≠ .panicked := by
  obtain ⟨entries, hr⟩ := Option.isSome_iff_exists.mp h
  unfold onMessageStringReceived
  rw [hr]
  dsimp only
  split
  · split
    · simp
    · split
      · simp
      · split
        · simp
        · simp
  · simp

/-! ## Claim theorems -/

/-- C8 (amended): `get_staking_epoch_history(b)` returns the first
history entry whose range `(start, end]` contains `b` — that is,
`start < b` and (`end = 0` or `b ≤ end`) — and `None` when no entry's
range contains `b`; the half-open range `[start, end)` of the claim
does not match the code. -/
theorem getStakingEpochHistory_eq_find (h : List StakingEpochHistory)
    (b : Nat) :
    getStakingEpochHistory h b = h.find? (fun x => epochRangeContains x b) := by
  induction h with
  | nil => rfl
  | cons x rest ih =>
    by_cases hx : x.staking_epoch_start_block < b
        ∧ (x.staking_epoch_end_block = 0 ∨ b ≤ x.staking_epoch_end_block)
    · have hb : epochRangeContains x b = true := by
        simp [epochRangeContains, hx.1]
        rcases hx.2 with h0 | hle
        · exact Or.inl (by simpa using h0)
        · exact Or.inr hle
      simp [getStakingEpochHistory, hx, List.find?, hb]
    · have hb : epochRangeContains x b = false := by
        simp only [epochRangeContains, Bool.and_eq_false_iff,
          Bool.or_eq_false_iff, decide_eq_false_iff_not, beq_eq_false_iff_ne]
        by_cases h1 : x.staking_epoch_start_block < b
        · right
          constructor
          · intro h0
            exact hx ⟨h1, Or.inl h0⟩
          · intro hle
            exact hx ⟨h1, Or.inr hle⟩
        · exact Or.inl h1
      simp [getStakingEpochHistory, hx, List.find?, hb, ih]

/-- C8 (counterexample): the history entry `⟨5, 5, 10, []⟩` contains
block 5 under the claim's half-open range (`5 ≤ 5` and `5 < 10`), yet
`get_staking_epoch_history` returns `None` for block 5: the code uses
`start < b`, not `start ≤ b`. -/
theorem getStakingEpochHistory_misses_start_block :
    getStakingEpochHistory [⟨5, 5, 10, []⟩] 5 = none
    ∧ (5 : Nat) ≤ 5 ∧ (5 : Nat) < 10 := by
  exact ⟨rfl, by decide, by decide⟩

/-- C1 (code bug): `report_new_epoch` never registers anything — it
returns the memorium unchanged in both branches (the `else` branch of
the source logs an info line and contains only an empty conditional).
Consequently, on a fresh memorium the call for epoch 1 leaves the
history empty, and the repeated call for epoch 1 does not even log the
duplicate warning (the id was never stored, so `binary_search` misses
again and a second info line is logged). -/
theorem report_new_epoch_registers_nothing :
    (∀ (m : HbbftMessageMemorium) (e s : Nat),
      (m.report_new_epoch e s).1 = m)
    ∧ ((HbbftMessageMemorium.new 10 "data/messages/").report_new_epoch 1 100).2
        = .infoNew 1
    ∧ ((((HbbftMessageMemorium.new 10 "data/messages/").report_new_epoch
          1 100).1.report_new_epoch 1 200).2 = .infoNew 1)
    ∧ (((HbbftMessageMemorium.new 10 "data/messages/").report_new_epoch
          1 100).1.report_new_epoch 1 200).1.staking_epoch_history = [] := by
  refine ⟨fun m e s => ?_, rfl, rfl, rfl⟩
  unfold HbbftMessageMemorium.report_new_epoch
  split <;> rfl

/-- C6 (counterexample): retention 5, directories `1..=10` on disk, an
item for epoch 11 arriving with a fresh deletion watermark: the cleanup
deletes directories 1 through 6 (every name `<= 11 - 5`), not just
directory 1 — directory 6 does not survive as the claim requires. -/
theorem cleanup_deletes_directory_six :
    onMessageStringReceived diskEnvTen
        (HbbftMessageMemorium.new 5 "data/messages/") "m" 11
      = .ok { HbbftMessageMemorium.new 5 "data/messages/" with
              message_tracking_id := 1
              last_block_deleted_from_disk := 11 }
          [1, 2, 3, 4, 5, 6] := by
  rfl

/-- C6 (amended): when the cleanup triggers (file-system calls succeed,
retention is enabled and `epoch` is beyond both the retention count and
the watermark plus retention), the set of deleted directories is
exactly the listed directories whose numeric name is at most
`epoch - config_blocks_to_keep_on_disk`. -/
theorem cleanup_deletes_exactly_up_to_cutoff (env : DiskEnv)
    (m : HbbftMessageMemorium) (json : String) (epoch : Nat)
    (entries : List (Option DirEntry))
    (hc : env.create_dir_ok = true) (hf : env.file_create_ok = true)
    (hr : env.read_dir = some entries)
    (h1 : 0 < m.config_blocks_to_keep_on_disk)
    (h2 : m.config_blocks_to_keep_on_disk < epoch)
    (h3 : m.last_block_deleted_from_disk + m.config_blocks_to_keep_on_disk
      < epoch) :
    ∃ m2 del, onMessageStringReceived env m json epoch = .ok m2 del
      ∧ ∀ d : Nat, d ∈ del ↔
          ((some ⟨true, some d⟩ : Option DirEntry) ∈ entries
            ∧ d ≤ epoch - m.config_blocks_to_keep_on_disk) := by
  have hlast : m.last_block_deleted_from_disk < epoch :=
    Nat.lt_of_le_of_lt (Nat.le_add_right _ _) h3
  unfold onMessageStringReceived
  rw [hr, hc, hf]
  rw [if_pos ⟨h1, hlast⟩]
  simp only [Bool.not_true]
  rw [if_neg (by decide : ¬((false : Bool) = true)),
    if_neg (by decide : ¬((false : Bool) = true)),
    if_pos ⟨h2, h3⟩]
  refine ⟨_, _, rfl, ?_⟩
  intro d
  constructor
  · intro hd
    rcases List.mem_filterMap.mp hd with ⟨e?, he, hfe⟩
    rcases e? with _ | ⟨isd, pe⟩
    · simp at hfe
    · rcases isd with _ | _
      · simp at hfe
      · rcases pe with _ | d0
        · simp at hfe
        · by_cases hcut : d0 ≤ epoch - m.config_blocks_to_keep_on_disk
          · have : d0 = d := by
              simpa [hcut] using hfe
            subst this
            exact ⟨he, hcut⟩
          · simp [hcut] at hfe
  · rintro ⟨he, hle⟩
    exact List.mem_filterMap.mpr ⟨some ⟨true, some d⟩, he, by simp [hle]⟩

/-- C7 (counterexample): a failure of `fs::read_dir` while the
retention cleanup is due is fatal — the source unwraps it, so the
worker thread panics instead of dropping the item. -/
theorem worker_panics_on_read_dir_error :
    workMessage ⟨true, true, true, none⟩
      { HbbftMessageMemorium.new 5 "data/messages/" with
        dispatched_messages := [⟨11, some "x"⟩] }
      = .panicked := by
  rfl

/-- C7 (amended): as long as listing the audit root succeeds, every
other I/O or serialization failure during a worker iteration is
non-fatal: directory-creation, file-creation, file-write and serde
failures all drop at most the current item and the worker never
panics. -/
theorem worker_never_panics_when_listing_succeeds (env : DiskEnv)
    (m : HbbftMessageMemorium) (h : env.read_dir.isSome) :
    workMessage env m ≠ .panicked := by
  unfold workMessage
  cases hp1 : workPhase1 env m with
  | panicked =>
    exfalso
    unfold workPhase1 at hp1
    rcases hm : m.dispatched_messages with _ | ⟨msg, rest⟩ <;>
      rw [hm] at hp1 <;> dsimp only at hp1
    · simp at hp1
    · rcases hs : msg.serialized with _ | json <;>
        rw [hs] at hp1 <;> dsimp only at hp1
      · simp at hp1
      · exact onMessageStringReceived_no_panic env _ json msg.epoch h hp1
  | ok m2 d1 =>
    dsimp only
    cases hp2 : workPhase2 env m2 with
    | panicked =>
      exfalso
      unfold workPhase2 at hp2
      rcases hm : m2.dispatched_seals with _ | ⟨⟨sl, ep⟩, rest⟩ <;>
        rw [hm] at hp2 <;> dsimp only at hp2
      · simp at hp2
      · rcases hs : sl.serialized with _ | json <;>
          rw [hs] at hp2 <;> dsimp only at hp2
        · simp at hp2
        · exact onMessageStringReceived_no_panic env _ json ep h hp2
    | ok m4 d2 => simp

/-- C9 (code bug): `work_message` computes a `had_worked` flag but ends
with a literal `return false;`, so every non-panicking iteration
reports `false` — even one that popped and persisted a message, as the
concrete run with one queued consensus message shows.  The 250 ms
sleep in the dispatcher's worker loop therefore happens on every
iteration. -/
theorem work_message_always_returns_false :
    (∀ (env : DiskEnv) (m : HbbftMessageMemorium),
      workMessage env m = .panicked
        ∨ ∃ m2 del, workMessage env m = .ok m2 false del)
    ∧ workMessage ⟨true, true, true, some []⟩
        { HbbftMessageMemorium.new 0 "audit/" with
          dispatched_messages := [⟨3, some "x"⟩] }
      = .ok { HbbftMessageMemorium.new 0 "audit/" with
              message_tracking_id := 1 }
          false [] := by
  constructor
  · intro env m
    unfold workMessage
    cases hp1 : workPhase1 env m with
    | panicked => exact Or.inl rfl
    | ok m2 d1 =>
      dsimp only
      cases hp2 : workPhase2 env m2 with
      | panicked => exact Or.inl rfl
      | ok m4 d2 => exact Or.inr ⟨_, _, rfl⟩
  · rfl

/-- C6 (witness): the amended cleanup law evaluated on the scenario
environment — retention 5, directories `1..=10` listed, epoch 11. -/
theorem cleanup_deletes_exactly_up_to_cutoff_witness :
    diskEnvTen.create_dir_ok = true ∧ diskEnvTen.file_create_ok = true
    ∧ diskEnvTen.read_dir
        = some ((List.range 10).map (fun i => some ⟨true, some (i + 1)⟩))
    ∧ 0 < (HbbftMessageMemorium.new 5
        "data/messages/").config_blocks_to_keep_on_disk
    ∧ (HbbftMessageMemorium.new 5
        "data/messages/").config_blocks_to_keep_on_disk < 11
    ∧ (HbbftMessageMemorium.new 5
          "data/messages/").last_block_deleted_from_disk
        + (HbbftMessageMemorium.new 5
            "data/messages/").config_blocks_to_keep_on_disk < 11
    ∧ ∃ m2 del,
        onMessageStringReceived diskEnvTen
          (HbbftMessageMemorium.new 5 "data/messages/") "m" 11
          = .ok m2 del
        ∧ ∀ d : Nat, d ∈ del ↔
            ((some ⟨true, some d⟩ : Option DirEntry)
                ∈ (List.range 10).map (fun i => some ⟨true, some (i + 1)⟩)
              ∧ d ≤ 11 - (HbbftMessageMemorium.new 5
                  "data/messages/").config_blocks_to_keep_on_disk) :=
  ⟨rfl, rfl, rfl, by decide, by decide, by decide,
    cleanup_deletes_exactly_up_to_cutoff diskEnvTen _ "m" 11 _ rfl rfl rfl
      (by decide) (by decide) (by decide)⟩

/-- C7 (witness): the amended no-panic law evaluated on a concrete
environment whose listing succeeds. -/
theorem worker_never_panics_when_listing_succeeds_witness :
    ((⟨true, true, true, some []⟩ : DiskEnv).read_dir.isSome = true)
    ∧ workMessage ⟨true, true, true, some []⟩
        (HbbftMessageMemorium.new 3 "data/messages/") ≠ .panicked :=
  ⟨rfl, worker_never_panics_when_listing_succeeds _ _ rfl⟩

/-- C2: `process_output` aborts by panic — with the engine maps
untouched — whenever the step output holds two or more agreed batches,
and returns without creating anything when it holds none. -/
theorem process_output_multi_batch_panics (env : Collab)
    (rn : List (Nat × Nat)) (s : SealingMap) (output : List Batch) :
    (2 ≤ output.length → processOutput env rn s output = .panicked rn s)
    ∧ (output = [] → processOutput env rn s output = .done .noBatch rn s) := by
  constructor
  · intro h
    unfold processOutput
    rw [if_pos h]
  · intro h
    subst h
    rfl

/-- C2 (witness): a two-batch output panics; an empty output returns
without a block. -/
theorem process_output_multi_batch_panics_witness :
    (2 ≤ ([⟨1, []⟩, ⟨2, []⟩] : List Batch).length
      ∧ processOutput collabBase [] [] [⟨1, []⟩, ⟨2, []⟩] = .panicked [] [])
    ∧ (([] : List Batch) = []
      ∧ processOutput collabBase [] [] [] = .done .noBatch [] []) :=
  ⟨⟨by decide,
      (process_output_multi_batch_panics collabBase [] [] _).1 (by decide)⟩,
   ⟨rfl, (process_output_multi_batch_panics collabBase [] [] _).2 rfl⟩⟩

/-- C4: a sealing message for a block at or below the locally known
chain head is dropped silently: `Ok` is returned and the
sealing-session map is left unchanged. -/
theorem obsolete_sealing_message_dropped (env : Collab) (s : SealingMap)
    (sender : NodeId) (msg B L : Nat)
    (hc : env.client_present = true) (hl : env.latest_block = some L)
    (hB : B ≤ L) :
    processSealingMessage env s sender msg B = (.ok (), s) := by
  unfold processSealingMessage
  rw [hc, hl]
  simp [hB]

/-- C4 (witness): a sealing message for block 3 at chain head 5 is
dropped with `Ok` and an unchanged (empty) session map. -/
theorem obsolete_sealing_message_dropped_witness :
    collabBase.client_present = true ∧ collabBase.latest_block = some 5
    ∧ (3 : Nat) ≤ 5
    ∧ processSealingMessage collabBase [] 0 0 3 = (.ok (), []) :=
  ⟨rfl, rfl, by decide,
    obsolete_sealing_message_dropped collabBase [] 0 0 3 5 rfl rfl (by decide)⟩

/-- C3 (counterexample): with the chain head at block 5 (next block 6),
a `Complete` session stored for block 6 — a block number at or below
the next block to be produced — survives the `seals_internally` query
(the code's `split_off(&next_block)` keeps the key itself), and the
query answers `true` from it; under the claim's pruning rule that
session would have been removed. -/
theorem seals_internally_keeps_next_block_session :
    sealsInternally collabBase [(6, Sealing.Complete 0)]
      = (some true, [(6, Sealing.Complete 0)]) := by
  rfl

/-- C3 (amended): whenever seal readiness is queried with a known
latest block `l`, exactly the sessions for block numbers strictly below
the next block `l + 1` are pruned (entries at or above `l + 1`
survive), and the query returns true exactly when a `Complete` session
exists for `l + 1`. -/
theorem seals_internally_prunes_strictly_below_next (env : Collab)
    (s : SealingMap) (l : Nat)
    (hc : env.client_present = true) (hl : env.latest_block = some l) :
    (∀ p ∈ (sealsInternally env s).2, l + 1 ≤ p.1)
    ∧ (∀ p ∈ s, l + 1 ≤ p.1 → p ∈ (sealsInternally env s).2)
    ∧ ((sealsInternally env s).1 = some true
        ↔ ∃ sig, mapGet (l + 1) s = some (Sealing.Complete sig)) := by
  unfold sealsInternally
  rw [hc, hl]
  simp only [Bool.not_true]
  rw [if_neg (by decide : ¬((false : Bool) = true))]
  rw [mapGet_filter_le]
  cases hm : mapGet (l + 1) s with
  | none =>
    refine ⟨?_, ?_, ?_⟩
    · intro p hp
      exact of_decide_eq_true (List.mem_filter.mp hp).2
    · intro p hp hle
      exact List.mem_filter.mpr ⟨hp, by simpa using hle⟩
    · simp
  | some x =>
    refine ⟨?_, ?_, ?_⟩
    · intro p hp
      exact of_decide_eq_true (List.mem_filter.mp hp).2
    · intro p hp hle
      exact List.mem_filter.mpr ⟨hp, by simpa using hle⟩
    · cases x with
      | Ongoing shares => simp [Sealing.signature]
      | Complete sig => simp [Sealing.signature]

/-- C3 (witness): the amended law evaluated with chain head 5 and a map
holding sessions for blocks 2 and 6; the `Complete` session for the
next block 6 makes the query answer true. -/
theorem seals_internally_prunes_strictly_below_next_witness :
    collabBase.client_present = true ∧ collabBase.latest_block = some 5
    ∧ (sealsInternally collabBase
        [(2, Sealing.Ongoing []), (6, Sealing.Complete 3)]).1 = some true :=
  ⟨rfl, rfl,
    ((seals_internally_prunes_strictly_below_next collabBase
        [(2, Sealing.Ongoing []), (6, Sealing.Complete 3)] 5
        rfl rfl).2.2).mpr ⟨3, rfl⟩⟩

/-- C5 (counterexample): for an agreed batch with no contributions the
claim's XOR over the (empty set of) long-enough contributions is zero,
but the code returns at the median-timestamp computation before the
random-number insert, so nothing at all is stored for the batch's
epoch. -/
theorem process_output_empty_batch_stores_nothing :
    processOutput collabBase [] [] [⟨7, []⟩] = .done .timestampFail [] []
    ∧ mapGet 7 ([] : List (Nat × Nat)) = none :=
  ⟨rfl, rfl⟩

/-- C5 (amended): for every agreed batch with at least one
contribution, batch processing does not abort and the random value
stored for the batch's epoch equals the XOR, starting from zero, of the
first 32 bytes (read as a 256-bit integer) of each contribution whose
`random_data` is at least 32 bytes long; shorter contributions are
excluded from the XOR without aborting the batch. -/
theorem process_output_stores_filtered_xor (env : Collab)
    (rn : List (Nat × Nat)) (s : SealingMap) (b : Batch)
    (h : b.contributions ≠ []) :
    ∃ why s2,
      processOutput env rn s [b]
        = .done why (mapInsert b.epoch (specRandomValue b.contributions) rn)
            s2 := by
  have hts : (medianTimestamp
      (b.contributions.map (fun nc => nc.2.timestamp))).isSome := by
    apply medianTimestamp_isSome
    simpa using h
  obtain ⟨t, ht⟩ := Option.isSome_iff_exists.mp hts
  unfold processOutput
  rw [if_neg (by simp : ¬2 ≤ ([b] : List Batch).length)]
  dsimp only [List.head?]
  rw [ht]
  dsimp only
  rw [batchRandomNumber_eq_spec]
  cases hcpb : env.create_pending_block (batchTxns env b) t b.epoch with
  | none => exact ⟨_, _, rfl⟩
  | some p =>
    rcases p with ⟨block_num, bare_hash⟩
    dsimp only
    cases hsign : env.sealing_sign
        ((mapGet block_num s).getD (Sealing.Ongoing [])) bare_hash with
    | error e => exact ⟨_, _, rfl⟩
    | ok r =>
      rcases r with ⟨s1, step⟩
      dsimp only
      cases hout : step.output with
      | nil => exact ⟨_, _, rfl⟩
      | cons sig tail => exact ⟨_, _, rfl⟩

/-- C5 (witness): a batch with one 32-byte contribution and one 1-byte
contribution: processing succeeds and stores the filtered XOR. -/
theorem process_output_stores_filtered_xor_witness :
    (([(1, ⟨[], 5, List.replicate 32 1⟩),
       (2, ⟨[], 6, [7]⟩)] : List (NodeId × Contribution)) ≠ [])
    ∧ ∃ why s2,
        processOutput collabBase [] []
          [⟨9, [(1, ⟨[], 5, List.replicate 32 1⟩), (2, ⟨[], 6, [7]⟩)]⟩]
          = .done why
              (mapInsert 9
                (specRandomValue
                  [(1, ⟨[], 5, List.replicate 32 1⟩), (2, ⟨[], 6, [7]⟩)])
                [])
              s2 :=
  ⟨List.cons_ne_nil _ _,
    process_output_stores_filtered_xor collabBase [] []
      ⟨9, [(1, ⟨[], 5, List.replicate 32 1⟩), (2, ⟨[], 6, [7]⟩)]⟩
      (List.cons_ne_nil _ _)⟩

/-- C10 (counterexample): `handle_message` with no sender id still runs
the epoch-change check first, and that check refreshes the BFT-core
instance state — here the refresh advances the abstract state from 0 to
1 — so engine state is modified even though the call errors with
`UnexpectedMessage` before decoding. -/
theorem handle_message_no_sender_mutates_state :
    handleMessage collabBase (fun _ => none) ⟨0, [], 0, []⟩ [] none
      = some ⟨.error .UnexpectedMessage, ⟨1, [], 0, []⟩, false⟩
    ∧ (⟨1, [], 0, []⟩ : EngineR) ≠ (⟨0, [], 0, []⟩ : EngineR) :=
  ⟨rfl, by decide⟩

/-- C10 (amended): with no sender node id, `handle_message` returns an
`UnexpectedMessage` error without attempting to decode the payload and
without touching the sealing-session map, the message counter or the
random-number map; the epoch-change check still runs first and may
refresh the BFT-core instance state. -/
theorem handle_message_no_sender_unexpected (env : Collab)
    (decode : List Nat → Option WireMessage) (e : EngineR)
    (message : List Nat) :
    ∃ out, handleMessage env decode e message none = some out
      ∧ out.result = .error .UnexpectedMessage
      ∧ out.decode_attempted = false
      ∧ out.engine.sealing = e.sealing
      ∧ out.engine.message_counter = e.message_counter
      ∧ out.engine.random_numbers = e.random_numbers := by
  refine ⟨⟨.error .UnexpectedMessage, checkForEpochChange env e, false⟩,
    rfl, rfl, rfl, ?_, ?_, ?_⟩ <;>
  · unfold checkForEpochChange
    split <;> rfl

end HbbftSpec
